import Mathlib

/-!
Shallow embedding of the sigil developer-account service
(credential policy, repository operations over the developers table,
lifecycle service, auth handlers and session middleware), translated
from the Go source and the SQL schema, together with theorems settling
the specification claims.

Conventions of the embedding:
* the developers table is a `List Developer` (one element per row);
* SQL `NOW()` is an explicit `now : Nat` argument threaded into every
  operation whose query writes a timestamp;
* Go byte-length of a string (`len`) is `goStrLen` over the UTF-8 sizes
  of the characters;
* bcrypt hashing/verification lives in an outside library and is
  nondeterministic (salted),
  so handlers and services take the hash and check functions as explicit
  arguments;
* fallible operations return `Except DomainError`.
-/

namespace Sigil

/-- `domain.Status` : one of pending / active / suspended / deleted. -/
inductive Status where
  | pending
  | active
  | suspended
  | deleted
deriving DecidableEq, Repr

/-- The domain error values of `internal/domain/developer.go`, plus
`errStorage` standing for any other (infrastructure-level) database error
a `pgx` call can surface. -/
inductive DomainError where
  | errEmailExists
  | errInvalidPassword
  | errInvalidEmail
  | errShortPassword
  | errWeakPassword
  | errNotFound
  | errWrongPassword
  | errInvalidInput
  | errStorage
deriving DecidableEq, Repr

/-- One row of the `developers` table (`domain.Developer`).
`metadata` is the JSONB bag, modelled as a key/value association list. -/
structure Developer where
  id : Nat
  email : String
  passwordHash : String
  fullName : Option String
  companyName : Option String
  status : Status
  emailVerified : Bool
  planTier : Option String
  createdAt : Nat
  updatedAt : Nat
  lastLoginAt : Option Nat
  metadata : List (String × String)
deriving DecidableEq, Repr

/-- `domain.CreateDeveloperInput`. -/
structure CreateDeveloperInput where
  email : String
  password : String
  fullName : Option String
  companyName : Option String
deriving DecidableEq, Repr

/-- `domain.UpdateDeveloperInput` (all fields are Go pointers, hence options). -/
structure UpdateDeveloperInput where
  fullName : Option String
  companyName : Option String
  status : Option Status
  planTier : Option String
deriving DecidableEq, Repr

/-- `domain.DeveloperFilter`. -/
structure DeveloperFilter where
  status : Option Status
  planTier : Option String
deriving DecidableEq, Repr

/-- The character classification of `utils.IsStrongPassword`:
`ch >= 'a' && ch <= 'z' || ch >= 'A' && ch <= 'Z'`. -/
def isAsciiLetter (ch : Char) : Bool :=
  (decide ('a' ≤ ch) && decide (ch ≤ 'z')) || (decide ('A' ≤ ch) && decide (ch ≤ 'Z'))

/-- Go `len(password)` is the UTF-8 byte length of the string. -/
def goStrLen (s : List Char) : Nat :=
  (s.map Char.utf8Size).sum

/-- `utils.IsStrongPassword`: error if byte-length < 8; otherwise the loop
over the runes records `hasLetter` when a rune is an ASCII letter and
`hasSymbol` when it is not; success requires both flags. -/
def IsStrongPassword (password : List Char) : Except DomainError Unit :=
  if goStrLen password < 8 then
    .error .errShortPassword
  else
    let hasLetter := password.any (fun ch => isAsciiLetter ch)
    let hasSymbol := password.any (fun ch => !isAsciiLetter ch)
    if hasLetter && hasSymbol then .ok () else .error .errWeakPassword

/-- The two failure kinds of token validation
(`utils.ErrExpiredToken` / `utils.ErrInvalidToken`). -/
inductive TokenError where
  | expired
  | invalid
deriving DecidableEq, Repr

/-- The claims a signed token carries: account id, email, issue and expiry
instants. -/
structure TokenPayload where
  developerID : Nat
  email : String
  issuedAt : Nat
  expiresAt : Nat
deriving DecidableEq, Repr

/-- A self-contained signed token: the payload together with its signature. -/
structure SignedToken where
  payload : TokenPayload
  sig : Nat
deriving DecidableEq, Repr

/-- Modelled from the spec: the JWT utility (`utils.GenerateTokenPair`,
`utils.ValidateToken` and the error values they use) is referenced by the
handlers and the middleware but its source file is not under src/. The
symmetric signature over the payload is modelled as a concrete keyed
checksum; a tampered or malformed token is one whose signature does not
verify against the shared secret. -/
def signature (secret : String) (p : TokenPayload) : Nat :=
  (secret.toList.map Char.toNat).sum * 31 + p.developerID * 7 +
    (p.email.toList.map Char.toNat).sum * 13 + p.issuedAt * 3 + p.expiresAt

/-- Modelled from the spec: `Validate(token) → claims | ErrExpiredToken |
ErrInvalidToken` verifies the signature first, then expiry, so an
expired-but-correctly-signed token is distinguished from a tampered or
malformed one. -/
def ValidateToken (secret : String) (now : Nat) (t : SignedToken) :
    Except TokenError TokenPayload :=
  if t.sig ≠ signature secret t.payload then .error .invalid
  else if t.payload.expiresAt < now then .error .expired
  else .ok t.payload

/-- The row an INSERT into developers produces: fields from the VALUES list
plus the schema's column defaults (status 'active', email_verified false,
plan_tier 'free', created_at/updated_at NOW(), metadata empty). -/
def newDeveloper (input : CreateDeveloperInput) (passwordHash : String)
    (newId now : Nat) : Developer :=
  { id := newId, email := input.email, passwordHash := passwordHash,
    fullName := input.fullName, companyName := input.companyName,
    status := .active, emailVerified := false, planTier := some ("free"),
    createdAt := now, updatedAt := now, lastLoginAt := none, metadata := [] }

/-- `developerRepo.Create`: INSERT relying on the schema's UNIQUE constraint
on email (and the primary key on id); any duplicate-key violation is mapped
to `ErrEmailExists` by inspecting the error text. The UNIQUE constraint in
the schema spans all rows, soft-deleted ones included. -/
def Repo.Create (db : List Developer) (input : CreateDeveloperInput)
    (passwordHash : String) (newId now : Nat) :
    Except DomainError (Developer × List Developer) :=
  if db.any (fun d => decide (d.email = input.email ∨ d.id = newId)) then
    .error .errEmailExists
  else
    let dev := newDeveloper input passwordHash newId now
    .ok (dev, db ++ [dev])

/-- `developerRepo.VerifyEmail`: UPDATE email_verified = true WHERE id and
status != 'deleted'; zero rows affected yields ErrNotFound. The query writes
no updated_at, so the embedding takes no clock argument. -/
def Repo.VerifyEmail (db : List Developer) (id : Nat) :
    Except DomainError (List Developer) :=
  if db.any (fun d => decide (d.id = id ∧ d.status ≠ .deleted)) then
    .ok (db.map (fun d =>
      if d.id = id ∧ d.status ≠ .deleted then { d with emailVerified := true } else d))
  else .error .errNotFound

/-- `developerRepo.GetByID`: SELECT WHERE id and status != 'deleted';
no row yields ErrNotFound. -/
def Repo.GetByID (db : List Developer) (id : Nat) : Except DomainError Developer :=
  match db.find? (fun d => decide (d.id = id ∧ d.status ≠ .deleted)) with
  | some dev => .ok dev
  | none => .error .errNotFound

/-- `developerRepo.GetByEmail`: SELECT WHERE email and status != 'deleted';
no row yields ErrNotFound. -/
def Repo.GetByEmail (db : List Developer) (email : String) :
    Except DomainError Developer :=
  match db.find? (fun d => decide (d.email = email ∧ d.status ≠ .deleted)) with
  | some dev => .ok dev
  | none => .error .errNotFound

/-- The WHERE clauses `developerRepo.GetAll` builds from the filter:
no status filter excludes deleted rows; an explicit 'deleted' status adds no
clause at all; any other status matches exactly; a plan-tier clause is added
only for a non-nil, non-empty value. -/
def matchesFilter (f : DeveloperFilter) (d : Developer) : Bool :=
  (match f.status with
   | none => decide (d.status ≠ .deleted)
   | some .deleted => true
   | some st => decide (d.status = st))
  &&
  (match f.planTier with
   | none => true
   | some pt => if pt = "" then true else decide (d.planTier = some pt))

/-- ORDER BY created_at DESC: insertion into a descending-by-createdAt list. -/
def insertByCreatedAtDesc (d : Developer) : List Developer → List Developer
  | [] => [d]
  | x :: xs =>
    if x.createdAt ≤ d.createdAt then d :: x :: xs
    else x :: insertByCreatedAtDesc d xs

/-- ORDER BY created_at DESC over a whole list. -/
def sortByCreatedAtDesc : List Developer → List Developer
  | [] => []
  | x :: xs => insertByCreatedAtDesc x (sortByCreatedAtDesc xs)

/-- `developerRepo.GetAll`: non-positive page and pageSize default to 1 and
20; rows matching the filter are ordered by created_at DESC and paged with
LIMIT pageSize OFFSET (page-1)*pageSize; an empty result set is reported as
ErrNotFound rather than an empty list. -/
def Repo.GetAll (db : List Developer) (f : DeveloperFilter)
    (page pageSize : Int) : Except DomainError (List Developer) :=
  let p := if page ≤ 0 then 1 else page
  let ps := if pageSize ≤ 0 then 20 else pageSize
  let sorted := sortByCreatedAtDesc (db.filter (matchesFilter f))
  let rows := (sorted.drop ((p - 1) * ps).toNat).take ps.toNat
  if rows.isEmpty then .error .errNotFound else .ok rows

/-- `developerRepo.UpdatePassword`: the compare-and-swap write — UPDATE
password_hash and updated_at WHERE password_hash = oldPasswordHash AND id AND
status != 'deleted'; zero rows affected yields ErrWrongPassword. -/
def Repo.UpdatePassword (db : List Developer) (id : Nat)
    (oldPasswordHash newPasswordHash : String) (now : Nat) :
    Except DomainError (List Developer) :=
  if db.any (fun d =>
      decide (d.passwordHash = oldPasswordHash ∧ d.id = id ∧ d.status ≠ .deleted)) then
    .ok (db.map (fun d =>
      if d.passwordHash = oldPasswordHash ∧ d.id = id ∧ d.status ≠ .deleted then
        { d with passwordHash := newPasswordHash, updatedAt := now }
      else d))
  else .error .errWrongPassword

/-- `developerRepo.Update`: UPDATE full_name, company_name, status, plan_tier
and updated_at WHERE id only (no status guard); RETURNING updated_at, so no
row yields ErrNotFound. A nil status would write SQL NULL into the NOT NULL
status column, which the database rejects (surfaced as a storage error). -/
def Repo.Update (db : List Developer) (id : Nat)
    (input : UpdateDeveloperInput) (now : Nat) :
    Except DomainError (List Developer) :=
  match input.status with
  | none => .error .errStorage
  | some st =>
    if db.any (fun d => decide (d.id = id)) then
      .ok (db.map (fun d =>
        if d.id = id then
          { d with fullName := input.fullName, companyName := input.companyName,
                   status := st, planTier := input.planTier, updatedAt := now }
        else d))
    else .error .errNotFound

/-- `developerRepo.UpdateLastLogin`: UPDATE last_login_at and updated_at
WHERE id AND status != 'deleted'; zero rows affected yields ErrNotFound. -/
def Repo.UpdateLastLogin (db : List Developer) (id : Nat)
    (loginTime now : Nat) : Except DomainError (List Developer) :=
  if db.any (fun d => decide (d.id = id ∧ d.status ≠ .deleted)) then
    .ok (db.map (fun d =>
      if d.id = id ∧ d.status ≠ .deleted then
        { d with lastLoginAt := some loginTime, updatedAt := now }
      else d))
  else .error .errNotFound

/-- `developerRepo.ResetPassword`: unconditional overwrite of password_hash
(with updated_at) WHERE id AND status != 'deleted'; zero rows affected
yields ErrNotFound. -/
def Repo.ResetPassword (db : List Developer) (id : Nat)
    (newPasswordHash : String) (now : Nat) : Except DomainError (List Developer) :=
  if db.any (fun d => decide (d.id = id ∧ d.status ≠ .deleted)) then
    .ok (db.map (fun d =>
      if d.id = id ∧ d.status ≠ .deleted then
        { d with passwordHash := newPasswordHash, updatedAt := now }
      else d))
  else .error .errNotFound

/-- `developerRepo.AddMetadata`: metadata || jsonb_build_object(key, value)
(the right operand wins on a duplicate key) with updated_at, WHERE id AND
status != 'deleted'; zero rows affected yields ErrNotFound. -/
def Repo.AddMetadata (db : List Developer) (id : Nat)
    (key value : String) (now : Nat) : Except DomainError (List Developer) :=
  if db.any (fun d => decide (d.id = id ∧ d.status ≠ .deleted)) then
    .ok (db.map (fun d =>
      if d.id = id ∧ d.status ≠ .deleted then
        { d with metadata := d.metadata.filter (fun kv => decide (kv.1 ≠ key)) ++ [(key, value)],
                 updatedAt := now }
      else d))
  else .error .errNotFound

/-- `developerRepo.Delete` (hard delete): DELETE WHERE id; zero rows affected
yields ErrNotFound. -/
def Repo.Delete (db : List Developer) (id : Nat) :
    Except DomainError (List Developer) :=
  if db.any (fun d => decide (d.id = id)) then
    .ok (db.filter (fun d => decide (d.id ≠ id)))
  else .error .errNotFound

/-- `developerRepo.SoftDelete`: UPDATE status = 'deleted' and updated_at
WHERE id only (matches already-deleted rows too); zero rows affected yields
ErrNotFound. -/
def Repo.SoftDelete (db : List Developer) (id : Nat) (now : Nat) :
    Except DomainError (List Developer) :=
  if db.any (fun d => decide (d.id = id)) then
    .ok (db.map (fun d =>
      if d.id = id then { d with status := .deleted, updatedAt := now } else d))
  else .error .errNotFound

/-- `developerRepo.Suspend`: UPDATE status = 'suspended' and updated_at
WHERE id only (no status guard); zero rows affected yields ErrNotFound. -/
def Repo.Suspend (db : List Developer) (id : Nat) (now : Nat) :
    Except DomainError (List Developer) :=
  if db.any (fun d => decide (d.id = id)) then
    .ok (db.map (fun d =>
      if d.id = id then { d with status := .suspended, updatedAt := now } else d))
  else .error .errNotFound

/-- `DeveloperService.UpdatePassword`: fetch by id, verify the old password
against the fetched hash locally (bcrypt's verifier is the `check`
argument), then hand the fetched hash to the repository's compare-and-swap
write. The read and the write see the storage state at two instants,
`dbRead` and `dbWrite`, which a concurrent writer may have made differ.
bcrypt's salted hashing of the new password is the `newHash` argument.
The returned pair is the service result together with the storage state
after the call. -/
def Service.UpdatePassword (dbRead dbWrite : List Developer) (id : Nat)
    (oldPassword : String) (check : String → String → Bool)
    (newHash : String) (now : Nat) :
    Except DomainError Unit × List Developer :=
  match Repo.GetByID dbRead id with
  | .error e => (.error e, dbWrite)
  | .ok dev =>
    if !check oldPassword dev.passwordHash then
      (.error .errInvalidPassword, dbWrite)
    else
      match Repo.UpdatePassword dbWrite id dev.passwordHash newHash now with
      | .ok db2 => (.ok (), db2)
      | .error e => (.error e, dbWrite)

/-- The distinct outcomes of `AuthHandler.Login` (each non-success
constructor is one of the handler's distinct error responses). -/
inductive LoginResult where
  | invalidRequestBody
  | invalidCredentials
  | accountSuspended
  | internalError
  | success (accessToken refreshToken : String) (id : Nat) (email : String)
deriving DecidableEq, Repr

/-- `AuthHandler.Login`: look up by email (invalid credentials when not
found); reject a suspended account; verify the password (invalid
credentials on mismatch); generate the token pair (`tokens` is the result
of `GenerateTokenPair`, `none` standing for a signing failure); then update
the last-login timestamp, logging and ignoring any failure of that write
(`lastLoginFails` models an infrastructure failure of the storage call).
Returns the response together with the storage state after the call. -/
def Handler.Login (db : List Developer) (email password : String)
    (check : String → String → Bool) (tokens : Option (String × String))
    (now : Nat) (lastLoginFails : Bool) : LoginResult × List Developer :=
  match Repo.GetByEmail db email with
  | .error e =>
    if e = .errNotFound then (.invalidCredentials, db) else (.internalError, db)
  | .ok dev =>
    if dev.status = .suspended then (.accountSuspended, db)
    else if !check password dev.passwordHash then (.invalidCredentials, db)
    else
      match tokens with
      | none => (.internalError, db)
      | some (a, r) =>
        let lastLogin : Except DomainError (List Developer) :=
          if lastLoginFails then .error .errStorage
          else Repo.UpdateLastLogin db dev.id now now
        match lastLogin with
        | .ok db2 => (.success a r dev.id dev.email, db2)
        | .error _ => (.success a r dev.id dev.email, db)

/-- The distinct outcomes of `AuthHandler.RefreshToken`. -/
inductive RefreshResult where
  | invalidRequestBody
  | refreshTokenExpired
  | invalidRefreshToken
  | developerNotFound
  | accountSuspended
  | internalError
  | success (accessToken refreshToken : String)
deriving DecidableEq, Repr

/-- `AuthHandler.RefreshToken`: validate the refresh token (expired and
invalid mapped to distinct responses), re-fetch the account by the id in
the claims, reject when not found (deleted accounts are invisible to
`GetByID`) or suspended, then issue a fresh pair. -/
def Handler.RefreshToken (db : List Developer) (secret : String) (now : Nat)
    (tok : SignedToken) (tokens : Option (String × String)) : RefreshResult :=
  match ValidateToken secret now tok with
  | .error .expired => .refreshTokenExpired
  | .error .invalid => .invalidRefreshToken
  | .ok claims =>
    match Repo.GetByID db claims.developerID with
    | .error e => if e = .errNotFound then .developerNotFound else .internalError
    | .ok dev =>
      if dev.status = .suspended then .accountSuspended
      else
        match tokens with
        | none => .internalError
        | some (a, r) => .success a r

/-- The distinct outcomes of the session middleware `AuthMiddleware`. -/
inductive MwResponse where
  | missingHeader
  | badFormat
  | expiredToken
  | invalidToken
  | proceed (developerID : Nat) (email : String)
deriving DecidableEq, Repr

/-- `middleware.AuthMiddleware`: the Authorization header (modelled as the
scheme word plus the extracted token) must be present and use the Bearer
scheme; the token is validated, with the expired and the invalid kinds
mapped to distinct unauthorized responses; on success the claims are
attached to the request context. -/
def AuthMiddleware (secret : String) (now : Nat)
    (authHeader : Option (String × SignedToken)) : MwResponse :=
  match authHeader with
  | none => .missingHeader
  | some (scheme, tok) =>
    if scheme ≠ "Bearer" then .badFormat
    else
      match ValidateToken secret now tok with
      | .error .expired => .expiredToken
      | .error .invalid => .invalidToken
      | .ok claims => .proceed claims.developerID claims.email

/-- The id/status projection of the table, used to state which operations
leave every row's status untouched. -/
def statusView (db : List Developer) : List (Nat × Status) :=
  db.map (fun d => (d.id, d.status))

end Sigil

open Sigil

/-- C3: the password policy trichotomy, exactly as the claim states it, with
"length" read as Go byte length and "alphabetic" as the ASCII letter test the
code performs. -/
theorem c3_password_policy (pw : List Char) :
    (goStrLen pw < 8 → IsStrongPassword pw = .error .errShortPassword)
    ∧ (8 ≤ goStrLen pw →
        (∃ c ∈ pw, isAsciiLetter c = true) →
        (∃ c ∈ pw, isAsciiLetter c = false) →
        IsStrongPassword pw = .ok ())
    ∧ (8 ≤ goStrLen pw →
        ((∀ c ∈ pw, isAsciiLetter c = true) ∨ (∀ c ∈ pw, isAsciiLetter c = false)) →
        IsStrongPassword pw = .error .errWeakPassword) := by
  refine ⟨fun hshort => ?_, fun hlen hl hs => ?_, fun hlen hmono => ?_⟩
  · simp [IsStrongPassword, hshort]
  · have hnot : ¬ goStrLen pw < 8 := by omega
    obtain ⟨cl, hcl, hcll⟩ := hl
    obtain ⟨cs, hcs, hcss⟩ := hs
    simp only [IsStrongPassword, hnot, if_false]
    have h1 : pw.any (fun ch => isAsciiLetter ch) = true :=
      List.any_eq_true.mpr ⟨cl, hcl, hcll⟩
    have h2 : pw.any (fun ch => !isAsciiLetter ch) = true :=
      List.any_eq_true.mpr ⟨cs, hcs, by simp [hcss]⟩
    simp [h1, h2]
  · have hnot : ¬ goStrLen pw < 8 := by omega
    simp only [IsStrongPassword, hnot, if_false]
    rcases hmono with hall | hall
    · have h2 : pw.any (fun ch => !isAsciiLetter ch) = false := by
        simp only [List.any_eq_false]
        intro c hc
        simp [hall c hc]
      simp [h2]
    · have h1 : pw.any (fun ch => isAsciiLetter ch) = false := by
        simp only [List.any_eq_false]
        intro c hc
        simp [hall c hc]
      simp [h1]

/-- C3 witness: the policy accepts a concrete mixed 8-character password. -/
theorem c3_password_policy_witness :
    IsStrongPassword ['p', 'a', 's', 's', 'w', '0', 'r', 'd'] = .ok () :=
  (c3_password_policy ['p', 'a', 's', 's', 'w', '0', 'r', 'd']).2.1
    (by decide) ⟨'p', by decide⟩ ⟨'0', by decide⟩

/-- A concrete active account, used in counterexamples and witnesses. -/
def devAlice : Developer :=
  { id := 1, email := "a@b.com", passwordHash := "bcrypt:Passw0rd",
    fullName := none, companyName := none, status := .active,
    emailVerified := false, planTier := some ("free"),
    createdAt := 1, updatedAt := 1, lastLoginAt := none, metadata := [] }

/-- A concrete suspended account. -/
def devSuspended : Developer :=
  { devAlice with id := 2, email := "s@b.com", status := .suspended }

/-- A concrete soft-deleted account. -/
def devDeleted : Developer :=
  { devAlice with id := 3, email := "d@b.com", status := .deleted }

/-- A concrete stand-in for bcrypt verification, used to instantiate the
`check` argument of services and handlers in witnesses: a stored hash is the
tagged plaintext and verification is the round-trip equality. -/
def bcryptModel (password hash : String) : Bool :=
  decide ("bcrypt:" ++ password = hash)

/-- A successful `GetByID` returns a row with the requested id whose status
is not deleted (both conjuncts of the WHERE clause). -/
theorem getByID_ok_inv (db : List Developer) (i : Nat) (dev : Developer)
    (h : Repo.GetByID db i = .ok dev) : dev.id = i ∧ dev.status ≠ .deleted := by
  unfold Repo.GetByID at h
  cases hf : db.find? (fun d => decide (d.id = i ∧ d.status ≠ .deleted)) with
  | none => rw [hf] at h; exact absurd h (by simp)
  | some d0 =>
    rw [hf] at h
    have hp := List.find?_some hf
    simp only [Except.ok.injEq] at h
    subst h
    simpa using hp

/-- Rows whose status is deleted are invisible to `GetByID`. -/
theorem getByID_deleted_invisible (db : List Developer) (i : Nat)
    (h : ∀ d ∈ db, d.id = i → d.status = .deleted) :
    Repo.GetByID db i = .error .errNotFound := by
  unfold Repo.GetByID
  have hf : db.find? (fun d => decide (d.id = i ∧ d.status ≠ .deleted)) = none := by
    rw [List.find?_eq_none]
    intro d hd
    simp only [decide_eq_true_eq, not_and, ne_eq, not_not]
    exact h d hd
  rw [hf]

/-- A status-preserving row transformation leaves the status view of the
table unchanged. -/
theorem statusView_map_of_preserving (db : List Developer)
    (f : Developer → Developer)
    (hf : ∀ d, (f d).id = d.id ∧ (f d).status = d.status) :
    statusView (db.map f) = statusView db := by
  simp only [statusView, List.map_map]
  apply List.map_congr_left
  intro d _
  simp [Function.comp, (hf d).1, (hf d).2]

/-- C1 counterexample: after a soft delete the email is still reserved —
Create with the same email fails with the duplicate-email error instead of
succeeding. -/
theorem c1_cex_soft_delete_reserves_email :
    Repo.SoftDelete [devAlice] 1 5 =
      .ok [{ devAlice with status := .deleted, updatedAt := 5 }]
    ∧ Repo.Create [{ devAlice with status := .deleted, updatedAt := 5 }]
        { email := "a@b.com", password := "", fullName := none, companyName := none }
        ("bcrypt:NewPass1") 2 6 = .error .errEmailExists :=
  ⟨rfl, rfl⟩

/-- C1 amended: the UNIQUE constraint on developers.email spans all rows,
soft-deleted ones included, so Create fails with the duplicate-email error
whenever any row of any status holds the email; it succeeds when no row
holds the email (and the fresh id is unused), as is the case after a hard
delete removes the row; soft-deleted accounts are nevertheless invisible to
GetByEmail. -/
theorem c1_email_uniqueness_spans_deleted (db : List Developer)
    (input : CreateDeveloperInput) (hsh : String) (newId now : Nat) :
    ((∃ d ∈ db, d.email = input.email) →
      Repo.Create db input hsh newId now = .error .errEmailExists)
    ∧ ((∀ d ∈ db, d.email ≠ input.email ∧ d.id ≠ newId) →
        Repo.Create db input hsh newId now =
          .ok (newDeveloper input hsh newId now, db ++ [newDeveloper input hsh newId now])
          ∧ (newDeveloper input hsh newId now).email = input.email
          ∧ (newDeveloper input hsh newId now).status = .active)
    ∧ ((∀ d ∈ db, d.email = input.email → d.status = .deleted) →
        Repo.GetByEmail db input.email = .error .errNotFound) := by
  refine ⟨fun hex => ?_, fun hall => ?_, fun hdel => ?_⟩
  · obtain ⟨d, hd, he⟩ := hex
    have hany : db.any (fun d => decide (d.email = input.email ∨ d.id = newId)) = true :=
      List.any_eq_true.mpr ⟨d, hd, by simp [he]⟩
    unfold Repo.Create
    rw [hany]
    simp
  · have hany : db.any (fun d => decide (d.email = input.email ∨ d.id = newId)) = false := by
      simp only [List.any_eq_false]
      intro d hd
      have hne := hall d hd
      simp only [decide_eq_true_eq, not_or]
      exact ⟨hne.1, hne.2⟩
    exact ⟨by unfold Repo.Create; rw [hany]; simp, rfl, rfl⟩
  · unfold Repo.GetByEmail
    have hf : db.find? (fun d => decide (d.email = input.email ∧ d.status ≠ .deleted)) = none := by
      rw [List.find?_eq_none]
      intro d hd
      simp only [decide_eq_true_eq, not_and, ne_eq, not_not]
      exact hdel d hd
    rw [hf]

/-- C1 witness: with one active holder of the email, Create reports the
duplicate-email error. -/
theorem c1_email_uniqueness_spans_deleted_witness :
    Repo.Create [devAlice]
      { email := "a@b.com", password := "", fullName := none, companyName := none }
      ("bcrypt:NewPass1") 2 6 = .error .errEmailExists :=
  (c1_email_uniqueness_spans_deleted [devAlice]
    { email := "a@b.com", password := "", fullName := none, companyName := none }
    ("bcrypt:NewPass1") 2 6).1 ⟨devAlice, by simp, rfl⟩

/-- C4 counterexample: Update (WHERE id only, status from the caller) moves
a suspended account back to active, and Suspend (WHERE id only) moves a
soft-deleted account out of the deleted status. -/
theorem c4_cex_status_reversible :
    Repo.Update [devSuspended] 2
      { fullName := none, companyName := none,
        status := some .active, planTier := some ("free") } 7
      = .ok [{ devSuspended with status := .active, updatedAt := 7 }]
    ∧ Repo.Suspend [devDeleted] 3 7
      = .ok [{ devDeleted with status := .suspended, updatedAt := 7 }] :=
  ⟨rfl, rfl⟩

/-- C4 amended: the guarded mutators (VerifyEmail, UpdatePassword,
UpdateLastLogin, ResetPassword, AddMetadata) never change any row's status;
Suspend and SoftDelete write only 'suspended' / 'deleted' into the matched
row and leave the rest alone (in particular neither ever writes 'active');
but Update applies the caller-supplied status with only an id match, and
Suspend/SoftDelete also match deleted rows, so Update can move a suspended
or deleted account back to active and Suspend can move a deleted account to
suspended. -/
theorem c4_status_machine_amended (db db' : List Developer) (id : Nat)
    (oldHash newHash key value : String) (t now : Nat) :
    (Repo.VerifyEmail db id = .ok db' → statusView db' = statusView db)
    ∧ (Repo.UpdatePassword db id oldHash newHash now = .ok db' →
        statusView db' = statusView db)
    ∧ (Repo.UpdateLastLogin db id t now = .ok db' → statusView db' = statusView db)
    ∧ (Repo.ResetPassword db id newHash now = .ok db' → statusView db' = statusView db)
    ∧ (Repo.AddMetadata db id key value now = .ok db' → statusView db' = statusView db)
    ∧ (Repo.Suspend db id now = .ok db' →
        statusView db' =
          db.map (fun d => (d.id, if d.id = id then Status.suspended else d.status)))
    ∧ (Repo.SoftDelete db id now = .ok db' →
        statusView db' =
          db.map (fun d => (d.id, if d.id = id then Status.deleted else d.status))) := by
  refine ⟨?_, ?_, ?_, ?_, ?_, ?_, ?_⟩ <;> intro h
  · unfold Repo.VerifyEmail at h
    split at h
    · simp only [Except.ok.injEq] at h
      subst h
      exact statusView_map_of_preserving _ _ (fun d => by split <;> exact ⟨rfl, rfl⟩)
    · exact absurd h (by simp)
  · unfold Repo.UpdatePassword at h
    split at h
    · simp only [Except.ok.injEq] at h
      subst h
      exact statusView_map_of_preserving _ _ (fun d => by split <;> exact ⟨rfl, rfl⟩)
    · exact absurd h (by simp)
  · unfold Repo.UpdateLastLogin at h
    split at h
    · simp only [Except.ok.injEq] at h
      subst h
      exact statusView_map_of_preserving _ _ (fun d => by split <;> exact ⟨rfl, rfl⟩)
    · exact absurd h (by simp)
  · unfold Repo.ResetPassword at h
    split at h
    · simp only [Except.ok.injEq] at h
      subst h
      exact statusView_map_of_preserving _ _ (fun d => by split <;> exact ⟨rfl, rfl⟩)
    · exact absurd h (by simp)
  · unfold Repo.AddMetadata at h
    split at h
    · simp only [Except.ok.injEq] at h
      subst h
      exact statusView_map_of_preserving _ _ (fun d => by split <;> exact ⟨rfl, rfl⟩)
    · exact absurd h (by simp)
  · unfold Repo.Suspend at h
    split at h
    · simp only [Except.ok.injEq] at h
      subst h
      simp only [statusView, List.map_map]
      apply List.map_congr_left
      intro d _
      by_cases hd : d.id = id <;> simp [hd]
    · exact absurd h (by simp)
  · unfold Repo.SoftDelete at h
    split at h
    · simp only [Except.ok.injEq] at h
      subst h
      simp only [statusView, List.map_map]
      apply List.map_congr_left
      intro d _
      by_cases hd : d.id = id <;> simp [hd]
    · exact absurd h (by simp)

/-- C4 witness: VerifyEmail on a concrete account leaves the status view of
the table unchanged. -/
theorem c4_status_machine_amended_witness :
    statusView [{ devAlice with emailVerified := true }] = statusView [devAlice] :=
  (c4_status_machine_amended [devAlice] [{ devAlice with emailVerified := true }] 1
    ("") ("") ("") ("") 0 0).1 rfl

/-- C6, at the failing input: VerifyEmail mutates the record (it flips
emailVerified) yet, alone among the mutating queries of the repository,
writes no updated_at, so the account's updatedAt does not advance. -/
theorem c6_verify_email_leaves_updated_at :
    Repo.VerifyEmail [devAlice] 1 = .ok [{ devAlice with emailVerified := true }]
    ∧ ({ devAlice with emailVerified := true } : Developer).updatedAt = devAlice.updatedAt
    ∧ ({ devAlice with emailVerified := true } : Developer).emailVerified ≠ devAlice.emailVerified :=
  ⟨rfl, rfl, by decide⟩

/-- C2 counterexample: for a suspended account, login answers with the
account-suspended signal even though the supplied password does not verify
against the stored hash — the suspended check precedes password
verification. -/
theorem c2_cex_suspended_without_password :
    (Handler.Login [devSuspended] ("s@b.com") ("wrong-password") bcryptModel
      (some (("at"), ("rt"))) 9 false).1 = .accountSuspended
    ∧ bcryptModel ("wrong-password") devSuspended.passwordHash = false :=
  ⟨rfl, rfl⟩

/-- C2 amended: a nonexistent (or soft-deleted, hence invisible) email and a
wrong password yield the same generic invalid-credentials response; the
account-suspended signal is produced for any suspended account found by
email, before and regardless of password verification. -/
theorem c2_login_responses_amended (db : List Developer) (email pw : String)
    (check : String → String → Bool) (tokens : Option (String × String))
    (now : Nat) (llf : Bool) :
    (Repo.GetByEmail db email = .error .errNotFound →
      (Handler.Login db email pw check tokens now llf).1 = .invalidCredentials)
    ∧ (∀ dev, Repo.GetByEmail db email = .ok dev → dev.status = .suspended →
        (Handler.Login db email pw check tokens now llf).1 = .accountSuspended)
    ∧ (∀ dev, Repo.GetByEmail db email = .ok dev → dev.status ≠ .suspended →
        check pw dev.passwordHash = false →
        (Handler.Login db email pw check tokens now llf).1 = .invalidCredentials) := by
  refine ⟨fun hget => ?_, fun dev hget hs => ?_, fun dev hget hs hc => ?_⟩
  · unfold Handler.Login
    rw [hget]
    rfl
  · unfold Handler.Login
    simp [hget, hs]
  · unfold Handler.Login
    simp [hget, hs, hc]

/-- C2 witness: a login for an email with no account yields the generic
invalid-credentials response. -/
theorem c2_login_responses_amended_witness :
    (Handler.Login [] ("x@y.com") ("pw") bcryptModel none 0 false).1 =
      .invalidCredentials :=
  (c2_login_responses_amended [] ("x@y.com") ("pw") bcryptModel none 0 false).1 rfl

/-- C9: when the account is found and not suspended, the password verifies
and token generation succeeds, login answers with the token pair — also when
the last-login write fails (lastLoginFails = true models that failure): the
failure is swallowed and the stored state is simply left untouched. -/
theorem c9_last_login_best_effort (db : List Developer) (email pw : String)
    (check : String → String → Bool) (a r : String) (now : Nat) (llf : Bool)
    (dev : Developer)
    (hget : Repo.GetByEmail db email = .ok dev)
    (hs : dev.status ≠ .suspended)
    (hc : check pw dev.passwordHash = true) :
    (Handler.Login db email pw check (some (a, r)) now llf).1 =
      .success a r dev.id dev.email
    ∧ (llf = true → Handler.Login db email pw check (some (a, r)) now llf =
        (.success a r dev.id dev.email, db)) := by
  refine ⟨?_, fun hllf => ?_⟩
  · unfold Handler.Login
    simp only [hget]
    rw [if_neg hs, hc]
    simp only [Bool.not_true, Bool.false_eq_true, if_false]
    split <;> rfl
  · subst hllf
    unfold Handler.Login
    simp only [hget]
    rw [if_neg hs, hc]
    simp

/-- C9 witness: a concrete successful login whose last-login write fails
still returns the token pair. -/
theorem c9_last_login_best_effort_witness :
    (Handler.Login [devAlice] ("a@b.com") ("Passw0rd") bcryptModel
      (some (("at"), ("rt"))) 9 true).1 = .success ("at") ("rt") 1 ("a@b.com") :=
  (c9_last_login_best_effort [devAlice] ("a@b.com") ("Passw0rd") bcryptModel
    ("at") ("rt") 9 true devAlice rfl (by decide) rfl).1

/-- C5: password change verifies the old password locally against the
fetched hash and, on mismatch, fails with ErrInvalidPassword without
writing; otherwise the compare-and-swap write succeeds exactly when some
live row with the id still carries the hash that was verified, a CAS miss
surfacing as ErrWrongPassword — a different error from ErrInvalidPassword. -/
theorem c5_change_password_cas (dbRead dbWrite : List Developer) (id : Nat)
    (oldPw newHash : String) (check : String → String → Bool) (now : Nat)
    (dev : Developer) (hget : Repo.GetByID dbRead id = .ok dev) :
    (check oldPw dev.passwordHash = false →
      Service.UpdatePassword dbRead dbWrite id oldPw check newHash now =
        (.error .errInvalidPassword, dbWrite))
    ∧ (check oldPw dev.passwordHash = true →
        ((∀ d ∈ dbWrite,
            ¬(d.passwordHash = dev.passwordHash ∧ d.id = id ∧ d.status ≠ .deleted)) →
          Service.UpdatePassword dbRead dbWrite id oldPw check newHash now =
            (.error .errWrongPassword, dbWrite))
        ∧ ((∃ d ∈ dbWrite,
            d.passwordHash = dev.passwordHash ∧ d.id = id ∧ d.status ≠ .deleted) →
          (Service.UpdatePassword dbRead dbWrite id oldPw check newHash now).1 = .ok ()))
    ∧ DomainError.errWrongPassword ≠ DomainError.errInvalidPassword := by
  refine ⟨fun hc => ?_, fun hc => ⟨fun hmiss => ?_, fun hhit => ?_⟩, by decide⟩
  · unfold Service.UpdatePassword
    simp [hget, hc]
  · have hany : dbWrite.any (fun d =>
        decide (d.passwordHash = dev.passwordHash ∧ d.id = id ∧ d.status ≠ .deleted)) = false := by
      simp only [List.any_eq_false]
      intro d hd
      simpa using hmiss d hd
    unfold Service.UpdatePassword Repo.UpdatePassword
    simp only [hget]
    rw [hc]
    simp only [Bool.not_true, Bool.false_eq_true, if_false]
    rw [hany]
    simp
  · obtain ⟨d, hd, hp⟩ := hhit
    have hany : dbWrite.any (fun d =>
        decide (d.passwordHash = dev.passwordHash ∧ d.id = id ∧ d.status ≠ .deleted)) = true :=
      List.any_eq_true.mpr ⟨d, hd, by simpa using hp⟩
    unfold Service.UpdatePassword Repo.UpdatePassword
    simp only [hget]
    rw [hc]
    simp only [Bool.not_true, Bool.false_eq_true, if_false]
    rw [hany]
    simp

/-- C5 witness: with a concurrent change having replaced the stored hash
between the read and the write, the CAS misses and the distinct
ErrWrongPassword conflict is returned with the store untouched. -/
theorem c5_change_password_cas_witness :
    Service.UpdatePassword [devAlice]
      [{ devAlice with passwordHash := "bcrypt:Changed1" }] 1
      ("Passw0rd") bcryptModel ("bcrypt:NewPass1") 9 =
      (.error .errWrongPassword, [{ devAlice with passwordHash := "bcrypt:Changed1" }]) :=
  ((c5_change_password_cas [devAlice]
    [{ devAlice with passwordHash := "bcrypt:Changed1" }] 1
    ("Passw0rd") ("bcrypt:NewPass1") bcryptModel 9 devAlice rfl).2.1 rfl).1 (by decide)

/-- C7: refresh validates the token, then re-fetches the account by the
claimed id: when every row with that id is soft-deleted the lookup misses
and refresh fails with the not-found response; when the fetched account is
suspended it fails with the suspended response; and a success response
implies the account was found, neither suspended nor deleted — so no token
pair is ever issued for a now-suspended or now-deleted account, even though
the token itself validated. -/
theorem c7_refresh_rechecks_status (db : List Developer) (secret : String)
    (now : Nat) (tok : SignedToken) (tokens : Option (String × String))
    (claims : TokenPayload)
    (hval : ValidateToken secret now tok = .ok claims) :
    ((∀ d ∈ db, d.id = claims.developerID → d.status = .deleted) →
      Handler.RefreshToken db secret now tok tokens = .developerNotFound)
    ∧ (∀ dev, Repo.GetByID db claims.developerID = .ok dev →
        dev.status = .suspended →
        Handler.RefreshToken db secret now tok tokens = .accountSuspended)
    ∧ (∀ a r, Handler.RefreshToken db secret now tok tokens = .success a r →
        ∃ dev, Repo.GetByID db claims.developerID = .ok dev ∧
          dev.status ≠ .suspended ∧ dev.status ≠ .deleted) := by
  unfold Handler.RefreshToken
  refine ⟨fun hdel => ?_, fun dev hget hs => ?_, fun a r hsucc => ?_⟩
  · simp [hval, getByID_deleted_invisible db claims.developerID hdel]
  · simp [hval, hget, hs]
  · simp only [hval] at hsucc
    cases hget : Repo.GetByID db claims.developerID with
    | error e =>
      simp only [hget] at hsucc
      split at hsucc <;> exact absurd hsucc (by simp)
    | ok dev =>
      simp only [hget] at hsucc
      refine ⟨dev, rfl, fun hs => ?_,
        (getByID_ok_inv db claims.developerID dev hget).2⟩
      rw [hs] at hsucc
      simp at hsucc

/-- A concrete token payload naming the soft-deleted account. -/
def tokenPayloadW : TokenPayload :=
  { developerID := 3, email := "d@b.com", issuedAt := 0, expiresAt := 100 }

/-- A correctly signed token over `tokenPayloadW`. -/
def signedTokenW : SignedToken :=
  { payload := tokenPayloadW, sig := signature ("secret") tokenPayloadW }

/-- C7 witness: a still-valid token whose account has since been
soft-deleted is refused on refresh. -/
theorem c7_refresh_rechecks_status_witness :
    Handler.RefreshToken [devDeleted] ("secret") 10 signedTokenW none =
      .developerNotFound :=
  (c7_refresh_rechecks_status [devDeleted] ("secret") 10 signedTokenW none
    tokenPayloadW rfl).1 (by decide)

/-- C8: validation classifies every token — ok exactly when correctly signed
and not past expiry, the expired kind exactly when correctly signed and past
expiry, the invalid kind exactly when the signature does not verify — and
both the session middleware and the refresh endpoint map the expired and the
invalid kinds to distinct responses. -/
theorem c8_expired_vs_invalid (secret : String) (now : Nat) (tok : SignedToken)
    (db : List Developer) (tokens : Option (String × String)) :
    (ValidateToken secret now tok = .error .expired ↔
      tok.sig = signature secret tok.payload ∧ tok.payload.expiresAt < now)
    ∧ (ValidateToken secret now tok = .error .invalid ↔
      tok.sig ≠ signature secret tok.payload)
    ∧ (ValidateToken secret now tok = .ok tok.payload ↔
      tok.sig = signature secret tok.payload ∧ ¬ tok.payload.expiresAt < now)
    ∧ (tok.sig = signature secret tok.payload → tok.payload.expiresAt < now →
      AuthMiddleware secret now (some (("Bearer"), tok)) = .expiredToken
      ∧ Handler.RefreshToken db secret now tok tokens = .refreshTokenExpired)
    ∧ (tok.sig ≠ signature secret tok.payload →
      AuthMiddleware secret now (some (("Bearer"), tok)) = .invalidToken
      ∧ Handler.RefreshToken db secret now tok tokens = .invalidRefreshToken)
    ∧ MwResponse.expiredToken ≠ MwResponse.invalidToken
    ∧ RefreshResult.refreshTokenExpired ≠ RefreshResult.invalidRefreshToken := by
  by_cases hsig : tok.sig = signature secret tok.payload <;>
    by_cases hexp : tok.payload.expiresAt < now <;>
      refine ⟨?_, ?_, ?_, ?_, ?_, by decide, by decide⟩ <;>
        simp [ValidateToken, AuthMiddleware, Handler.RefreshToken, hsig, hexp]

/-- C8 witness: a correctly signed token past its expiry draws the
expired responses from both the middleware and the refresh endpoint. -/
theorem c8_expired_vs_invalid_witness :
    AuthMiddleware ("secret") 200 (some (("Bearer"), signedTokenW)) = .expiredToken
    ∧ Handler.RefreshToken [] ("secret") 200 signedTokenW none =
      .refreshTokenExpired :=
  (c8_expired_vs_invalid ("secret") 200 signedTokenW [] none).2.2.2.1 rfl (by decide)

/-- Inserting into a descending list adds one to the length. -/
theorem length_insertByCreatedAtDesc (d : Developer) (l : List Developer) :
    (insertByCreatedAtDesc d l).length = l.length + 1 := by
  induction l with
  | nil => rfl
  | cons x xs ih =>
    unfold insertByCreatedAtDesc
    split
    · rfl
    · simp only [List.length_cons, ih]

/-- The ORDER BY sort preserves the number of rows. -/
theorem length_sortByCreatedAtDesc (l : List Developer) :
    (sortByCreatedAtDesc l).length = l.length := by
  induction l with
  | nil => rfl
  | cons x xs ih =>
    unfold sortByCreatedAtDesc
    simp [length_insertByCreatedAtDesc, ih]

/-- C10: GetAll first defaults non-positive page and pageSize to 1 and 20,
never returns an empty list under an ok, and answers the not-found error
whenever the requested page holds no matching row — be it because nothing
matches the filter or because the page is out of range — so those two cases
are indistinguishable to the caller. -/
theorem c10_getall_empty_page_not_found (db : List Developer)
    (f : DeveloperFilter) (page pageSize : Int) :
    (Repo.GetAll db f page pageSize =
      Repo.GetAll db f (if page ≤ 0 then 1 else page)
        (if pageSize ≤ 0 then 20 else pageSize))
    ∧ (∀ l, Repo.GetAll db f page pageSize = .ok l → l ≠ [])
    ∧ ((db.filter (matchesFilter f)).length ≤
        (((if page ≤ 0 then 1 else page) - 1) *
          (if pageSize ≤ 0 then 20 else pageSize)).toNat →
        Repo.GetAll db f page pageSize = .error .errNotFound) := by
  have hp : (if (if page ≤ 0 then 1 else page) ≤ 0 then 1
      else (if page ≤ 0 then 1 else page)) = (if page ≤ 0 then 1 else page) := by
    by_cases h1 : page ≤ 0 <;> simp [h1]
  have hps : (if (if pageSize ≤ 0 then 20 else pageSize) ≤ 0 then 20
      else (if pageSize ≤ 0 then 20 else pageSize)) =
      (if pageSize ≤ 0 then 20 else pageSize) := by
    by_cases h1 : pageSize ≤ 0 <;> simp [h1]
  refine ⟨?_, fun l h => ?_, fun hle => ?_⟩
  · simp only [Repo.GetAll, hp, hps]
  · simp only [Repo.GetAll] at h
    by_cases hr : (List.take (if pageSize ≤ 0 then 20 else pageSize).toNat
        (List.drop ((((if page ≤ 0 then 1 else page) - 1) *
            (if pageSize ≤ 0 then 20 else pageSize)).toNat)
          (sortByCreatedAtDesc (db.filter (matchesFilter f))))).isEmpty = true
    · rw [if_pos hr] at h
      exact absurd h (by simp)
    · rw [if_neg hr] at h
      simp only [Except.ok.injEq] at h
      subst h
      simpa [List.isEmpty_iff] using hr
  · have hdrop : (sortByCreatedAtDesc (db.filter (matchesFilter f))).drop
        ((((if page ≤ 0 then 1 else page) - 1) *
          (if pageSize ≤ 0 then 20 else pageSize)).toNat) = [] :=
      List.drop_eq_nil_of_le (by rw [length_sortByCreatedAtDesc]; exact hle)
    simp only [Repo.GetAll]
    rw [hdrop]
    simp

/-- C10 witness: one matching account but an out-of-range page draws the
not-found error. -/
theorem c10_getall_empty_page_not_found_witness :
    Repo.GetAll [devAlice] { status := none, planTier := none } 2 1 =
      .error .errNotFound :=
  (c10_getall_empty_page_not_found [devAlice]
    { status := none, planTier := none } 2 1).2.2 (by decide)
